import Mathlib

/-!
Verification of the extension lifecycle manager and lazy resource cache of
`app/bot.py` (class `GhosttyBot`).

The Python code is shallowly embedded: each method becomes a pure Lean
function over explicit state.  Python exceptions become `Except`; the
interpreter's import machinery (`importlib`, `sys.modules`), the discord.py
module system (`extensions` dict, `ExtensionError` hierarchy), asyncio's
`TaskGroup` and `discord.utils.cached_property` are modelled by their
documented semantics, since they are external collaborators of the file
under study.
-/

namespace GhosttyBot

/-! ### Module-system model for extension discovery

`is_valid_extension` checks, with Python short-circuit `and`:
`extension.startswith("app.components.")`,
`bool(importlib.util.find_spec(extension))`, and
`callable(getattr(importlib.import_module(extension), "setup", None))`.

A candidate module, as the import machinery sees it, either raises from its
top-level code when imported, or imports fine and has no `setup` attribute,
a non-callable `setup`, or a callable `setup`.  A name absent from the tree
is one `find_spec` resolves to `None`. -/

inductive ModuleKind where
  | importRaises
  | noSetupAttr
  | setupNotCallable
  | setupCallable
deriving DecidableEq, Repr

/-- The module tree: candidate module names with how each behaves. -/
abbrev ModuleTree := List (String × ModuleKind)

/-- `sys.modules`: names whose modules have already been imported. -/
abbrev SysModules := List String

/-- Python's `str.startswith`, over the character sequence. -/
def starts_with (s pre : String) : Bool :=
  pre.data.isPrefixOf s.data

/-- `importlib.util.find_spec(name)` is truthy iff the module resolves. -/
def find_spec (tree : ModuleTree) (name : String) : Bool :=
  (tree.lookup name).isSome

/-- `callable(getattr(module, "setup", None))` for a module of the given kind. -/
def setup_callable : ModuleKind → Bool
  | .setupCallable => true
  | _ => false

/-- `importlib.import_module(name)`: locating failure or a raising top-level
body propagates as an exception; a successful import caches the module in
`sys.modules` (executing its top-level code). -/
def import_module (tree : ModuleTree) (sys : SysModules) (name : String) :
    Except String (ModuleKind × SysModules) :=
  match tree.lookup name with
  | none => .error ("ModuleNotFoundError: " ++ name)
  | some .importRaises => .error ("ImportError: " ++ name)
  | some k => .ok (k, if name ∈ sys then sys else name :: sys)

/-- `GhosttyBot.is_valid_extension`, with the import-cache state threaded
through and exceptions surfaced as `Except.error`. -/
def is_valid_extension (tree : ModuleTree) (sys : SysModules) (ext : String) :
    Except String (Bool × SysModules) :=
  if starts_with ext "app.components." then
    if find_spec tree ext then
      match import_module tree sys ext with
      | .ok (k, sys') => .ok (setup_callable k, sys')
      | .error e => .error e
    else .ok (false, sys)
  else .ok (false, sys)

/-- The `pkgutil.walk_packages` loop of `get_component_extension_names`:
check each walked candidate with `is_valid_extension`, collecting the valid
names; an exception from the validity check propagates. -/
def walk_valid (tree : ModuleTree) :
    List (String × ModuleKind) → SysModules →
    Except String (List String × SysModules)
  | [], sys => .ok ([], sys)
  | (n, _) :: rest, sys =>
    match is_valid_extension tree sys n with
    | .error e => .error e
    | .ok (b, sys') =>
      match walk_valid tree rest sys' with
      | .error e => .error e
      | .ok (ns, sys'') => .ok (if b then n :: ns else ns, sys'')

/-- `GhosttyBot.get_component_extension_names`: walk every candidate under
the components namespace and keep the valid ones. -/
def get_component_extension_names (tree : ModuleTree) (sys : SysModules) :
    Except String (List String × SysModules) :=
  walk_valid tree tree sys

/-! ### Extension loader model

The discord.py module system: `bot.extensions` is a dict keyed by module
name (here the list of active names), `load_extension` raises
`ExtensionAlreadyLoaded`, `ExtensionNotFound` or `ExtensionFailed` (the
module's own `setup` raised; the library rolls the partial setup back), and
`unload_extension` raises `ExtensionNotLoaded`.  All are subclasses of
`ExtensionError`.  A loadable module's environment records whether its
`setup` succeeds. -/

/-- `none`: the module cannot be found; `some b`: found, and its setup
routine succeeds iff `b`. -/
abbrev ModuleEnv := String → Option Bool

inductive ExtensionError where
  | extensionFailed (name : String)
  | alreadyLoaded (name : String)
  | notLoaded (name : String)
  | notFound (name : String)
deriving DecidableEq, Repr

/-- `GhosttyBot.load_extension` (the override only adds a log line and a
tracing span around `commands.Bot.load_extension`): on success the name
joins the active set, on failure the active set is unchanged. -/
def load_extension (env : ModuleEnv) (st : List String) (name : String) :
    Except ExtensionError (List String) :=
  if name ∈ st then .error (.alreadyLoaded name)
  else
    match env name with
    | none => .error (.notFound name)
    | some false => .error (.extensionFailed name)
    | some true => .ok (name :: st)

/-- `commands.Bot.unload_extension`. -/
def unload_extension (st : List String) (name : String) :
    Except ExtensionError (List String) :=
  if name ∈ st then .ok (st.erase name) else .error (.notLoaded name)

/-- The two `except` arms of `_try_extension`: `ExtensionFailed` is logged
with `logger.opt(exception=...).exception(...)`, every other
`ExtensionError` with `logger.warning`. -/
inductive LogLevel where
  | errorWithTrace
  | warning
deriving DecidableEq, Repr

def classify : ExtensionError → LogLevel
  | .extensionFailed _ => .errorWithTrace
  | _ => .warning

inductive ExtOp where
  | load
  | unload
deriving DecidableEq, Repr

structure TryResult where
  ok : Bool
  extensions : List String
  logs : List LogLevel
deriving DecidableEq, Repr

/-- `GhosttyBot._try_extension`: run the chosen module-scope operation,
catch any `ExtensionError` at the per-module boundary, classify it into a
log entry and report a boolean. -/
def try_extension (env : ModuleEnv) (op : ExtOp) (st : List String)
    (name : String) : TryResult :=
  match (match op with
         | .load => load_extension env st name
         | .unload => unload_extension st name) with
  | .ok st' => ⟨true, st', []⟩
  | .error e => ⟨false, st, [classify e]⟩

/-- `GhosttyBot.try_load_extension`. -/
def try_load_extension (env : ModuleEnv) (st : List String) (name : String) :
    TryResult :=
  try_extension env .load st name

/-- `GhosttyBot.try_unload_extension`. -/
def try_unload_extension (env : ModuleEnv) (st : List String) (name : String) :
    TryResult :=
  try_extension env .unload st name

/-! ### Bootstrap orchestrator model

`setup_hook` runs `asyncio.TaskGroup` with one
`group.create_task(self.load_extension(extension))` per discovered
extension — the raw `load_extension`, which catches nothing.  TaskGroup
semantics: tasks start in creation order when the parent first suspends;
once any task raises, the group cancels the tasks that have not finished
and `__aexit__` re-raises.  `setup_fanout` is that fan-out for activations
that run without an internal suspension point: tasks complete in creation
order, and the first extension error aborts the group, so the extensions
after it are cancelled before loading, and `setup_hook` raises. -/

def setup_fanout (env : ModuleEnv) (st : List String) :
    List String → Except ExtensionError (List String)
  | [] => .ok st
  | n :: rest =>
    match load_extension env st n with
    | .ok st' => setup_fanout env st' rest
    | .error e => .error e

/-! ### Message gate model

`on_message` with the facts it inspects: whether the author is a bot,
whether `message.type` lies in `REGULAR_MESSAGE_TYPES`, whether
`message.guild is None`, and the content.  `try_dm` and `dispatch` become
emitted actions. -/

structure Message where
  authorIsBot : Bool
  isRegularType : Bool
  inGuild : Bool
  content : String
deriving DecidableEq, Repr

inductive GateAction where
  | dmReply (content : String)
  | dispatchEvent (event : String) (m : Message)
deriving DecidableEq, Repr

/-- `GhosttyBot._fails_message_filters`: look the `MessageFilter` cog up
among active cogs (`filterCogActive`); an absent cog means
`bool(None) = False`, otherwise `bool(cog.check(message))`. -/
def fails_message_filters (filterCogActive : Bool) (check : Message → Bool)
    (m : Message) : Bool :=
  filterCogActive && check m

/-- `GhosttyBot.on_message`, as the list of actions it performs. -/
def on_message (filterCogActive : Bool) (check : Message → Bool)
    (m : Message) : List GateAction :=
  if m.authorIsBot || !m.isRegularType then []
  else if !m.inGuild && m.content = "ping" then [.dmReply "pong"]
  else if !(fails_message_filters filterCogActive check m) then
    [.dispatchEvent "message_filter_passed" m]
  else []

/-! ### Platform objects and the resource cache -/

structure GuildEmoji where
  name : String
  id : Nat
deriving DecidableEq, Repr

inductive ChannelKind where
  | text
  | forum
  | voice
deriving DecidableEq, Repr

structure GuildChannel where
  id : Nat
  kind : ChannelKind
deriving DecidableEq, Repr

structure Guild where
  id : Nat
  gname : String
  channels : List GuildChannel
  emojis : List GuildEmoji
deriving DecidableEq, Repr

/-- The gateway client's cache: the guilds the bot is a member of, in
order (`self.guilds`). -/
structure ClientState where
  guilds : List Guild
deriving DecidableEq, Repr

/-- The bot configuration (external, read-only): `guild_id` is optional
(falsy when unset), the channel ids are ints, and
`webhook_channel_ids` maps each feed type to a channel id. -/
structure Config where
  guild_id : Option Nat
  log_channel_id : Nat
  help_channel_id : Nat
  webhook_channel_ids : List (String × Nat)
deriving Repr

/-- `commands.Bot.get_guild`: look the id up in the client's guild cache. -/
def get_guild (st : ClientState) (gid : Nat) : Option Guild :=
  st.guilds.find? (fun g => g.id == gid)

/-- `commands.Bot.get_channel`: search every cached guild's channels. -/
def client_get_channel (st : ClientState) (cid : Nat) : Option GuildChannel :=
  ((st.guilds.map Guild.channels).flatten).find? (fun c => c.id == cid)

/-- `Guild.get_channel`. -/
def guild_get_channel (g : Guild) (cid : Nat) : Option GuildChannel :=
  g.channels.find? (fun c => c.id == cid)

/-- The computation under the `ghostty_guild` cached property.  Returns the
resolved guild paired with whether the fallback log line fired; `none`
models the `IndexError` of `self.guilds[0]` on an empty guild list. -/
def ghostty_guild (cfg : Config) (st : ClientState) : Option (Guild × Bool) :=
  match cfg.guild_id with
  | some gid =>
    match get_guild st gid with
    | some g => some (g, false)
    | none => st.guilds.head?.map (fun g => (g, true))
  | none => st.guilds.head?.map (fun g => (g, true))

/-- The computation under the `log_channel` cached property: `get_channel`
then `assert isinstance(channel, dc.TextChannel)` — a missing channel
(`None`) or a non-text channel fails the assertion. -/
def log_channel (cfg : Config) (st : ClientState) : Except String GuildChannel :=
  match client_get_channel st cfg.log_channel_id with
  | some c =>
    if c.kind = .text then .ok c else .error "AssertionError: log channel"
  | none => .error "AssertionError: log channel"

/-- The computation under the `help_channel` cached property (forum). -/
def help_channel (cfg : Config) (st : ClientState) : Except String GuildChannel :=
  match client_get_channel st cfg.help_channel_id with
  | some c =>
    if c.kind = .forum then .ok c else .error "AssertionError: help channel"
  | none => .error "AssertionError: help channel"

/-- The loop of `webhook_channels`: resolve each configured feed type
against the primary guild; a missing channel or a non-text channel raises
`TypeError` with the feed type spliced into the message, so the partially
built dict is discarded. -/
def webhook_channels_loop (g : Guild) :
    List (String × Nat) → Except String (List (String × GuildChannel))
  | [] => .ok []
  | (ft, cid) :: rest =>
    match guild_get_channel g cid with
    | none => .error ("failed to find " ++ ft ++ " webhook channel")
    | some c =>
      if c.kind = .text then
        match webhook_channels_loop g rest with
        | .error e => .error e
        | .ok acc => .ok ((ft, c) :: acc)
      else .error ("expected " ++ ft ++ " webhook channel to be a text channel")

/-- The computation under the `webhook_channels` cached property. -/
def webhook_channels (cfg : Config) (st : ClientState) :
    Except String (List (String × GuildChannel)) :=
  match ghostty_guild cfg st with
  | none => .error "IndexError: guilds"
  | some (g, _) => webhook_channels_loop g cfg.webhook_channel_ids

/-! ### Memoization (`discord.utils.cached_property`)

On first access the wrapped computation runs once and its value is stored
on the instance; every later access returns the stored value without
running the computation again. -/

structure MemoAccess (α : Type) where
  value : α
  cell : Option α
  computed : Bool

/-- One attribute access through `cached_property`: `cell` is the stored
slot before the access, `s` the gateway state at access time. -/
def cached_property_access {α σ : Type} (compute : σ → α) (cell : Option α)
    (s : σ) : MemoAccess α :=
  match cell with
  | some v => ⟨v, some v, false⟩
  | none => ⟨compute s, some (compute s), true⟩

/-! ### Emoji cache -/

/-- The 12 literals of the `EmojiName` type alias. -/
def emojiNames : List String :=
  ["commit", "discussion", "discussion_answered", "discussion_duplicate",
   "discussion_outdated", "issue_closed_completed", "issue_closed_unplanned",
   "issue_open", "pull_closed", "pull_draft", "pull_merged", "pull_open"]

/-- A value of the `_ghostty_emojis` dict.  Its Python annotation claims
`dc.Emoji`, but `load_emojis` also stores the plain string `"❓"`, so the
honest value type is this sum. -/
inductive EmojiValue where
  | real (e : GuildEmoji)
  | placeholderGlyph (s : String)
deriving DecidableEq, Repr

abbrev EmojiMap := String → Option EmojiValue

def emptyEmojiMap : EmojiMap := fun _ => none

def updateMap (m : EmojiMap) (k : String) (v : EmojiValue) : EmojiMap :=
  fun n => if n = k then some v else m n

/-- The first loop of `load_emojis`: walk the guild's emojis in order,
keeping those whose name is an expected label (a later duplicate name
overwrites an earlier one, as dict assignment does). -/
def collect_emojis (valid : List String) :
    List GuildEmoji → EmojiMap → EmojiMap
  | [], m => m
  | e :: rest, m =>
    collect_emojis valid rest
      (if e.name ∈ valid then updateMap m e.name (.real e) else m)

/-- `valid_emoji_names - self._ghostty_emojis.keys()`, in label order. -/
def missing_emojis (valid : List String) (m : EmojiMap) : List String :=
  valid.filter (fun n => (m n).isNone)

/-- `GhosttyBot.load_emojis` from an empty cache (its state at `__init__`):
returns the final mapping and the messages sent to the log channel, each
message carrying the list of missing labels it names. -/
def load_emojis (valid : List String) (ges : List GuildEmoji) :
    EmojiMap × List (List String) :=
  let m := collect_emojis valid ges emptyEmojiMap
  let miss := missing_emojis valid m
  if miss = [] then (m, [])
  else
    (fun n => if n ∈ miss then some (.placeholderGlyph "❓") else m n, [miss])

/-! ### Auxiliary predicates and concrete fixtures -/

/-- A webhook feed entry is defective for guild `g` when the configured
channel is absent from the guild or is not a text channel. -/
def bad_feed_entry (g : Guild) (cid : Nat) : Bool :=
  match guild_get_channel g cid with
  | none => true
  | some c => decide (c.kind ≠ ChannelKind.text)

/-- A client-cache channel lookup is defective for the expected kind when
the channel is absent or of another kind. -/
def bad_client_channel (st : ClientState) (cid : Nat) (k : ChannelKind) : Bool :=
  match client_get_channel st cid with
  | none => true
  | some c => decide (c.kind ≠ k)

/-- A components tree with one module whose top-level code raises on import. -/
def brokenTree : ModuleTree :=
  [("app.components.broken", ModuleKind.importRaises)]

/-- A components tree with one well-formed module. -/
def goodTree : ModuleTree :=
  [("app.components.good", ModuleKind.setupCallable)]

/-- A module environment where `app.components.alpha` always fails its
setup routine and `app.components.beta` loads fine. -/
def envC1 : ModuleEnv := fun n =>
  if n = "app.components.alpha" then some false
  else if n = "app.components.beta" then some true
  else none

/-! ## Claims -/

/-! ### C2 — discovery raising behaviour -/

/-- C2 counterexample: a candidate whose import itself fails is not
silently excluded — `is_valid_extension` propagates the exception of
`importlib.import_module`, and `get_component_extension_names` therefore
raises too, instead of shrinking the candidate set. -/
theorem c2_discovery_raises_on_import_failure :
    is_valid_extension brokenTree [] "app.components.broken" =
      .error "ImportError: app.components.broken" ∧
    get_component_extension_names brokenTree [] =
      .error "ImportError: app.components.broken" :=
  ⟨rfl, rfl⟩

/-- C2 (amended): `is_valid_extension` never raises provided the
candidate's own import does not raise; under that proviso a candidate
outside the namespace, unresolvable by `find_spec`, or without a callable
`setup` is silently excluded (`false`), and validity holds exactly for the
three-part predicate. -/
theorem c2_is_valid_extension_total_unless_import_raises
    (tree : ModuleTree) (sys : SysModules) (ext : String)
    (h : tree.lookup ext ≠ some ModuleKind.importRaises) :
    ∃ b sys', is_valid_extension tree sys ext = .ok (b, sys') ∧
      (b = true ↔
        starts_with ext "app.components." = true ∧
        ∃ k, tree.lookup ext = some k ∧ setup_callable k = true) := by
  by_cases hs : starts_with ext "app.components." = true
  · cases ht : tree.lookup ext with
    | none =>
      refine ⟨false, sys, ?_, ?_⟩
      · simp [is_valid_extension, find_spec, hs, ht]
      · simp [ht]
    | some k =>
      have heq : is_valid_extension tree sys ext =
          .ok (setup_callable k, if ext ∈ sys then sys else ext :: sys) := by
        cases k with
        | importRaises => exact absurd ht h
        | noSetupAttr => simp [is_valid_extension, find_spec, import_module, hs, ht]
        | setupNotCallable =>
          simp [is_valid_extension, find_spec, import_module, hs, ht]
        | setupCallable => simp [is_valid_extension, find_spec, import_module, hs, ht]
      refine ⟨setup_callable k, _, heq, ?_⟩
      constructor
      · intro hb
        exact ⟨hs, k, rfl, hb⟩
      · rintro ⟨-, k', hk', hc⟩
        obtain rfl : k = k' := Option.some.inj hk'
        exact hc
  · refine ⟨false, sys, ?_, ?_⟩
    · simp [is_valid_extension, hs]
    · simp [hs]

/-- Witness for the amended C2 at a concrete well-formed module. -/
theorem c2_is_valid_extension_total_unless_import_raises_witness :
    ∃ b sys', is_valid_extension goodTree [] "app.components.good" =
        .ok (b, sys') ∧
      (b = true ↔
        starts_with "app.components.good" "app.components." = true ∧
        ∃ k, goodTree.lookup "app.components.good" = some k ∧
          setup_callable k = true) :=
  c2_is_valid_extension_total_unless_import_raises goodTree []
    "app.components.good" (by decide)

/-! ### C9 — discovery purity -/

/-- C9 counterexample: probing a well-formed candidate imports it —
discovery returns with the import cache grown by the candidate, so it does
not leave process state unchanged. -/
theorem c9_discovery_mutates_import_cache :
    is_valid_extension goodTree [] "app.components.good" =
      .ok (true, ["app.components.good"]) ∧
    get_component_extension_names goodTree [] =
      .ok (["app.components.good"], ["app.components.good"]) ∧
    (["app.components.good"] : SysModules) ≠ ([] : SysModules) :=
  ⟨rfl, rfl, by decide⟩

/-- C9 (amended): for a namespaced candidate that resolves, is not yet in
`sys.modules` and whose import does not raise, `is_valid_extension` does
load the module — executing its top-level code and adding it to the
module cache — and reports whether its `setup` is callable. -/
theorem c9_is_valid_extension_imports_candidate
    (tree : ModuleTree) (sys : SysModules) (ext : String) (k : ModuleKind)
    (hstart : starts_with ext "app.components." = true)
    (hk : tree.lookup ext = some k)
    (hkind : k ≠ ModuleKind.importRaises)
    (hnew : ext ∉ sys) :
    is_valid_extension tree sys ext = .ok (setup_callable k, ext :: sys) := by
  unfold is_valid_extension find_spec import_module
  cases k with
  | importRaises => exact absurd rfl hkind
  | noSetupAttr => simp [hstart, hk, hnew]
  | setupNotCallable => simp [hstart, hk, hnew]
  | setupCallable => simp [hstart, hk, hnew]

/-- Witness for the amended C9. -/
theorem c9_is_valid_extension_imports_candidate_witness :
    is_valid_extension goodTree [] "app.components.good" =
      .ok (setup_callable ModuleKind.setupCallable,
           "app.components.good" :: []) :=
  c9_is_valid_extension_imports_candidate goodTree [] "app.components.good"
    ModuleKind.setupCallable (by decide) (by decide) (by decide) (by decide)

/-! ### C1 — bootstrap fan-out under a failing extension -/

/-- C1 counterexample: with the discovered set `{alpha, beta}` (N = 2) and
`alpha` failing activation, `setup_hook`'s fan-out does not complete with
the other N − 1 extensions active: the `ExtensionFailed` escapes
`load_extension` (which catches nothing), the TaskGroup cancels `beta`,
and bootstrap aborts with the error instead of returning an active set. -/
theorem c1_failing_extension_aborts_bootstrap :
    setup_fanout envC1 [] ["app.components.alpha", "app.components.beta"] =
      .error (.extensionFailed "app.components.alpha") :=
  rfl

/-- C1 (amended): a single always-failing extension among the discovered
set makes `setup_hook`'s TaskGroup fan-out raise — startup aborts rather
than completing with the remaining extensions active; the failure is not
caught at the per-module boundary. -/
theorem c1_setup_fanout_aborts_on_always_failing (env : ModuleEnv)
    (st : List String) (names : List String) (name : String)
    (hmem : name ∈ names) (hfail : env name = some false) :
    ∃ e, setup_fanout env st names = .error e := by
  induction names generalizing st with
  | nil => cases hmem
  | cons n rest ih =>
    cases hload : load_extension env st n with
    | error e => exact ⟨e, by simp [setup_fanout, hload]⟩
    | ok st' =>
      have hne : n ≠ name := by
        rintro rfl
        unfold load_extension at hload
        by_cases hm : n ∈ st
        · simp [hm] at hload
        · simp [hm, hfail] at hload
      have hrest : name ∈ rest := by
        cases List.mem_cons.mp hmem with
        | inl hcase => exact absurd hcase.symm hne
        | inr hcase => exact hcase
      have step : setup_fanout env st (n :: rest) = setup_fanout env st' rest := by
        simp [setup_fanout, hload]
      rw [step]
      exact ih st' hrest

/-- Witness for the amended C1. -/
theorem c1_setup_fanout_aborts_on_always_failing_witness :
    ∃ e, setup_fanout envC1 []
        ["app.components.alpha", "app.components.beta"] = .error e :=
  c1_setup_fanout_aborts_on_always_failing envC1 []
    ["app.components.alpha", "app.components.beta"] "app.components.alpha"
    (List.mem_cons_self _ _) rfl

/-! ### C3 — try_load_extension / try_unload_extension -/

/-- C3: the per-module boundary of `_try_extension`.  `try_load_extension`
succeeds exactly when the module-system load does, leaving the name in the
active set; on any extension error it returns `false`, the active set is
unchanged and the single log entry classifies the error
(`ExtensionFailed` at high severity, other module-system errors as a
warning); loading an already-active name and unloading a not-active name
are idempotent failures; a successful unload removes the name entirely. -/
theorem c3_try_extension_boundary (env : ModuleEnv) (st : List String)
    (name : String) (hnd : st.Nodup) :
    ((try_load_extension env st name).ok = true ↔
      ∃ st', load_extension env st name = .ok st') ∧
    ((try_load_extension env st name).ok = true →
      name ∈ (try_load_extension env st name).extensions) ∧
    ((try_load_extension env st name).ok = false →
      (try_load_extension env st name).extensions = st ∧
      ∃ e, load_extension env st name = .error e ∧
        (try_load_extension env st name).logs = [classify e]) ∧
    (name ∈ st →
      (try_load_extension env st name).ok = false ∧
      (try_load_extension env st name).extensions = st ∧
      (try_load_extension env st name).logs = [LogLevel.warning]) ∧
    (env name = some false → name ∉ st →
      (try_load_extension env st name).ok = false ∧
      (try_load_extension env st name).logs = [LogLevel.errorWithTrace]) ∧
    ((try_unload_extension env st name).ok = true ↔ name ∈ st) ∧
    ((try_unload_extension env st name).ok = true →
      name ∉ (try_unload_extension env st name).extensions) ∧
    (name ∉ st →
      (try_unload_extension env st name).ok = false ∧
      (try_unload_extension env st name).extensions = st ∧
      (try_unload_extension env st name).logs = [LogLevel.warning]) := by
  by_cases hmem : name ∈ st
  · have hload : load_extension env st name = .error (.alreadyLoaded name) := by
      simp [load_extension, hmem]
    have htl : try_load_extension env st name = ⟨false, st, [LogLevel.warning]⟩ := by
      simp [try_load_extension, try_extension, hload, classify]
    have htu : try_unload_extension env st name = ⟨true, st.erase name, []⟩ := by
      simp [try_unload_extension, try_extension, unload_extension, hmem]
    refine ⟨?_, ?_, ?_, ?_, ?_, ?_, ?_, ?_⟩
    · simp [htl, hload]
    · simp [htl]
    · exact fun _ => ⟨by simp [htl], .alreadyLoaded name, hload, by simp [htl, classify]⟩
    · exact fun _ => ⟨by simp [htl], by simp [htl], by simp [htl]⟩
    · exact fun _ hnot => absurd hmem hnot
    · simp [htu, hmem]
    · intro _
      rw [htu]
      intro hin
      exact absurd rfl ((hnd.mem_erase_iff.mp hin).1)
    · exact fun hnot => absurd hmem hnot
  · have hunload : unload_extension st name = .error (.notLoaded name) := by
      simp [unload_extension, hmem]
    have htu : try_unload_extension env st name = ⟨false, st, [LogLevel.warning]⟩ := by
      simp [try_unload_extension, try_extension, hunload, classify]
    cases henv : env name with
    | none =>
      have hload : load_extension env st name = .error (.notFound name) := by
        simp [load_extension, hmem, henv]
      have htl : try_load_extension env st name =
          ⟨false, st, [LogLevel.warning]⟩ := by
        simp [try_load_extension, try_extension, hload, classify]
      refine ⟨?_, ?_, ?_, ?_, ?_, ?_, ?_, ?_⟩
      · simp [htl, hload]
      · simp [htl]
      · exact fun _ => ⟨by simp [htl], .notFound name, hload, by simp [htl, classify]⟩
      · exact fun hin => absurd hin hmem
      · exact fun hf => absurd hf (by simp)
      · simp [htu, hmem]
      · intro hok
        rw [htu] at hok
        cases hok
      · exact fun _ => ⟨by simp [htu], by simp [htu], by simp [htu]⟩
    | some b =>
      cases b with
      | false =>
        have hload : load_extension env st name =
            .error (.extensionFailed name) := by
          simp [load_extension, hmem, henv]
        have htl : try_load_extension env st name =
            ⟨false, st, [LogLevel.errorWithTrace]⟩ := by
          simp [try_load_extension, try_extension, hload, classify]
        refine ⟨?_, ?_, ?_, ?_, ?_, ?_, ?_, ?_⟩
        · simp [htl, hload]
        · simp [htl]
        · exact fun _ =>
            ⟨by simp [htl], .extensionFailed name, hload, by simp [htl, classify]⟩
        · exact fun hin => absurd hin hmem
        · exact fun _ _ => ⟨by simp [htl], by simp [htl]⟩
        · simp [htu, hmem]
        · intro hok
          rw [htu] at hok
          cases hok
        · exact fun _ => ⟨by simp [htu], by simp [htu], by simp [htu]⟩
      | true =>
        have hload : load_extension env st name = .ok (name :: st) := by
          simp [load_extension, hmem, henv]
        have htl : try_load_extension env st name = ⟨true, name :: st, []⟩ := by
          simp [try_load_extension, try_extension, hload]
        refine ⟨?_, ?_, ?_, ?_, ?_, ?_, ?_, ?_⟩
        · simp [htl, hload]
        · simp [htl]
        · intro hfalse
          rw [htl] at hfalse
          cases hfalse
        · exact fun hin => absurd hin hmem
        · exact fun hf => absurd hf (by simp)
        · simp [htu, hmem]
        · intro hok
          rw [htu] at hok
          cases hok
        · exact fun _ => ⟨by simp [htu], by simp [htu], by simp [htu]⟩

/-- Witness for C3: loading the loadable `beta` module into an empty
active set succeeds and puts it in the active set. -/
theorem c3_try_extension_boundary_witness :
    (try_load_extension envC1 [] "app.components.beta").ok = true ∧
    "app.components.beta" ∈
      (try_load_extension envC1 [] "app.components.beta").extensions := by
  have T := c3_try_extension_boundary envC1 [] "app.components.beta" (by simp)
  exact ⟨T.1.mpr ⟨["app.components.beta"], rfl⟩,
    T.2.1 (T.1.mpr ⟨["app.components.beta"], rfl⟩)⟩

/-! ### C5 — the message gate -/

/-- C5: a bot-authored or non-regular-type message is rejected before the
filter pipeline; a direct message whose content is exactly "ping" gets the
fixed "pong" reply and nothing else; otherwise, when the filter step
reports no rejection, exactly one `message_filter_passed` event carrying
the original message is dispatched, and an absent filter cog means no
rejection. -/
theorem c5_on_message_gate (active : Bool) (check : Message → Bool)
    (m : Message) :
    (m.authorIsBot = true ∨ m.isRegularType = false →
      on_message active check m = []) ∧
    (m.authorIsBot = false → m.isRegularType = true → m.inGuild = false →
      m.content = "ping" → on_message active check m = [.dmReply "pong"]) ∧
    (m.authorIsBot = false → m.isRegularType = true →
      (m.inGuild = true ∨ m.content ≠ "ping") →
      fails_message_filters active check m = false →
      on_message active check m =
        [.dispatchEvent "message_filter_passed" m]) ∧
    (m.authorIsBot = false → m.isRegularType = true →
      (m.inGuild = true ∨ m.content ≠ "ping") →
      fails_message_filters active check m = true →
      on_message active check m = []) ∧
    (active = false → fails_message_filters active check m = false) := by
  refine ⟨?_, ?_, ?_, ?_, ?_⟩
  · rintro (h | h) <;> simp [on_message, h]
  · intro h1 h2 h3 h4
    simp [on_message, h1, h2, h3, h4]
  · rintro h1 h2 (h3 | h3) h4 <;> simp [on_message, h1, h2, h3, h4]
  · rintro h1 h2 (h3 | h3) h4 <;> simp [on_message, h1, h2, h3, h4]
  · intro h
    simp [fails_message_filters, h]

/-- Witness for C5: a direct "ping" from a human with no filter cog. -/
theorem c5_on_message_gate_witness :
    on_message false (fun _ => false) ⟨false, true, false, "ping"⟩ =
      [.dmReply "pong"] :=
  (c5_on_message_gate false (fun _ => false)
    ⟨false, true, false, "ping"⟩).2.1 rfl rfl rfl rfl

/-! ### C6 — ghostty_guild resolution -/

/-- C6: with at least one guild membership `ghostty_guild` never raises;
a configured id resolvable through `get_guild` yields the configured
guild without a fallback log, and otherwise the first guild of the client
is returned with the fallback logged. -/
theorem c6_ghostty_guild_resolution (cfg : Config) (st : ClientState)
    (h : st.guilds ≠ []) :
    (∃ g logged, ghostty_guild cfg st = some (g, logged)) ∧
    (∀ gid g, cfg.guild_id = some gid → get_guild st gid = some g →
      ghostty_guild cfg st = some (g, false)) ∧
    ((cfg.guild_id = none ∨
      ∃ gid, cfg.guild_id = some gid ∧ get_guild st gid = none) →
      ∃ g, st.guilds.head? = some g ∧ ghostty_guild cfg st = some (g, true)) := by
  obtain ⟨g0, gs, hgs⟩ : ∃ g0 gs, st.guilds = g0 :: gs := by
    cases hl : st.guilds with
    | nil => exact absurd hl h
    | cons a l => exact ⟨a, l, rfl⟩
  refine ⟨?_, ?_, ?_⟩
  · cases hcfg : cfg.guild_id with
    | none => exact ⟨g0, true, by simp [ghostty_guild, hcfg, hgs]⟩
    | some gid =>
      cases hgg : get_guild st gid with
      | none => exact ⟨g0, true, by simp [ghostty_guild, hcfg, hgg, hgs]⟩
      | some g => exact ⟨g, false, by simp [ghostty_guild, hcfg, hgg]⟩
  · intro gid g hcfg hgg
    simp [ghostty_guild, hcfg, hgg]
  · rintro (hcfg | ⟨gid, hcfg, hgg⟩)
    · exact ⟨g0, by simp [hgs], by simp [ghostty_guild, hcfg, hgs]⟩
    · exact ⟨g0, by simp [hgs], by simp [ghostty_guild, hcfg, hgg, hgs]⟩

/-- Witness for C6: a configured and cached guild resolves to itself. -/
theorem c6_ghostty_guild_resolution_witness :
    ghostty_guild ⟨some 1, 0, 0, []⟩ ⟨[⟨1, "ghostty", [], []⟩]⟩ =
      some (⟨1, "ghostty", [], []⟩, false) :=
  (c6_ghostty_guild_resolution ⟨some 1, 0, 0, []⟩ ⟨[⟨1, "ghostty", [], []⟩]⟩
    (by simp)).2.1 1 ⟨1, "ghostty", [], []⟩ rfl rfl

/-! ### C8 — memoization of the lazy accessors -/

/-- C8: `cached_property` computes on the first access only; every later
access returns the identical cached object without recomputing, even from
a different gateway state — instantiated at all four lazy accessors
(`ghostty_guild`, `log_channel`, `help_channel`, `webhook_channels`). -/
theorem c8_cached_property_memoizes :
    (∀ (α σ : Type) (compute : σ → α) (s₀ s₁ : σ),
      (cached_property_access compute
          (cached_property_access compute none s₀).cell s₁).value =
        (cached_property_access compute none s₀).value ∧
      (cached_property_access compute
          (cached_property_access compute none s₀).cell s₁).computed = false ∧
      (cached_property_access compute none s₀).computed = true) ∧
    (∀ (cfg : Config) (s₀ s₁ : ClientState),
      (cached_property_access (ghostty_guild cfg)
          (cached_property_access (ghostty_guild cfg) none s₀).cell s₁).value =
        ghostty_guild cfg s₀) ∧
    (∀ (cfg : Config) (s₀ s₁ : ClientState),
      (cached_property_access (log_channel cfg)
          (cached_property_access (log_channel cfg) none s₀).cell s₁).value =
        log_channel cfg s₀) ∧
    (∀ (cfg : Config) (s₀ s₁ : ClientState),
      (cached_property_access (help_channel cfg)
          (cached_property_access (help_channel cfg) none s₀).cell s₁).value =
        help_channel cfg s₀) ∧
    (∀ (cfg : Config) (s₀ s₁ : ClientState),
      (cached_property_access (webhook_channels cfg)
          (cached_property_access (webhook_channels cfg) none s₀).cell s₁).value =
        webhook_channels cfg s₀) :=
  ⟨fun _ _ _ _ _ => ⟨rfl, rfl, rfl⟩, fun _ _ _ => rfl, fun _ _ _ => rfl,
   fun _ _ _ => rfl, fun _ _ _ => rfl⟩

/-! ### C7 — fatal resource-resolution defects -/

/-- C7: `webhook_channels` raises on the first defective feed entry with a
message naming that feed type, and an `.ok` result covers every configured
feed type with its text channel (no partial mapping); `log_channel` fails
its assertion whenever the configured channel is absent or not a text
channel. -/
theorem c7_resource_resolution_fatal (g : Guild)
    (pairs : List (String × Nat)) (cfg : Config) (st : ClientState) :
    ((∃ p ∈ pairs, bad_feed_entry g p.2 = true) →
      ∃ ft cid msg, (ft, cid) ∈ pairs ∧ bad_feed_entry g cid = true ∧
        webhook_channels_loop g pairs = .error msg ∧
        (msg = "failed to find " ++ ft ++ " webhook channel" ∨
          msg = "expected " ++ ft ++ " webhook channel to be a text channel")) ∧
    (∀ res, webhook_channels_loop g pairs = .ok res →
      ∀ p, p ∈ pairs → ∃ c, (p.1, c) ∈ res ∧
        guild_get_channel g p.2 = some c ∧ c.kind = ChannelKind.text) ∧
    (bad_client_channel st cfg.log_channel_id ChannelKind.text = true →
      ∃ msg, log_channel cfg st = .error msg) := by
  refine ⟨?_, ?_, ?_⟩
  · induction pairs with
    | nil => rintro ⟨q, hq, -⟩; cases hq
    | cons p rest ih =>
      rintro ⟨q, hq, hbad⟩
      obtain ⟨ft, cid⟩ := p
      by_cases hb : bad_feed_entry g cid = true
      · cases hch : guild_get_channel g cid with
        | none =>
          refine ⟨ft, cid, _, List.mem_cons_self _ _, hb, ?_, .inl rfl⟩
          simp [webhook_channels_loop, hch]
        | some c =>
          have hkind : c.kind ≠ ChannelKind.text := by
            have := hb
            unfold bad_feed_entry at this
            rw [hch] at this
            simpa using this
          refine ⟨ft, cid, _, List.mem_cons_self _ _, hb, ?_, .inr rfl⟩
          simp [webhook_channels_loop, hch, hkind]
      · have hq' : q ∈ rest := by
          cases List.mem_cons.mp hq with
          | inl heq =>
            exfalso
            rw [heq] at hbad
            exact hb hbad
          | inr hmem => exact hmem
        obtain ⟨ft', cid', msg, hmem, hbad', herr, hform⟩ := ih ⟨q, hq', hbad⟩
        have hch : ∃ c, guild_get_channel g cid = some c ∧
            c.kind = ChannelKind.text := by
          unfold bad_feed_entry at hb
          cases hgc : guild_get_channel g cid with
          | none => rw [hgc] at hb; simp at hb
          | some c =>
            rw [hgc] at hb
            simp at hb
            exact ⟨c, rfl, hb⟩
        obtain ⟨c, hgc, hkind⟩ := hch
        refine ⟨ft', cid', msg, List.mem_cons_of_mem _ hmem, hbad', ?_, hform⟩
        simp [webhook_channels_loop, hgc, hkind, herr]
  · induction pairs with
    | nil => intro res _ p hp; cases hp
    | cons hd rest ih =>
      intro res hres p hp
      obtain ⟨ft, cid⟩ := hd
      cases hgc : guild_get_channel g cid with
      | none => simp [webhook_channels_loop, hgc] at hres
      | some c =>
        by_cases hkind : c.kind = ChannelKind.text
        · cases hrest : webhook_channels_loop g rest with
          | error e => simp [webhook_channels_loop, hgc, hkind, hrest] at hres
          | ok acc =>
            have hres' : res = (ft, c) :: acc := by
              have := hres
              simp [webhook_channels_loop, hgc, hkind, hrest] at this
              exact this.symm
            cases List.mem_cons.mp hp with
            | inl heq =>
              subst heq
              exact ⟨c, by simp [hres'], hgc, hkind⟩
            | inr hmem =>
              obtain ⟨c', hc'mem, hc'gc, hc'kind⟩ := ih acc hrest p hmem
              exact ⟨c', by simp [hres', hc'mem], hc'gc, hc'kind⟩
        · simp [webhook_channels_loop, hgc, hkind] at hres
  · intro hb
    unfold bad_client_channel at hb
    cases hcc : client_get_channel st cfg.log_channel_id with
    | none => exact ⟨"AssertionError: log channel", by simp [log_channel, hcc]⟩
    | some c =>
      rw [hcc] at hb
      simp at hb
      exact ⟨"AssertionError: log channel", by simp [log_channel, hcc, hb]⟩

/-- Witness for C7: a feed entry pointing at a voice channel raises with a
message naming that feed type. -/
theorem c7_resource_resolution_fatal_witness :
    ∃ ft cid msg,
      (ft, cid) ∈ [("commits", 5)] ∧
      bad_feed_entry ⟨1, "g", [⟨5, ChannelKind.voice⟩], []⟩ cid = true ∧
      webhook_channels_loop ⟨1, "g", [⟨5, ChannelKind.voice⟩], []⟩
        [("commits", 5)] = .error msg ∧
      (msg = "failed to find " ++ ft ++ " webhook channel" ∨
        msg = "expected " ++ ft ++ " webhook channel to be a text channel") :=
  (c7_resource_resolution_fatal ⟨1, "g", [⟨5, ChannelKind.voice⟩], []⟩
    [("commits", 5)] ⟨none, 0, 0, []⟩ ⟨[]⟩).1
    ⟨("commits", 5), List.mem_cons_self _ _, by decide⟩

/-! ### Emoji-cache lemmas shared by C4 and C10 -/

theorem collect_emojis_cons (valid : List String) (e : GuildEmoji)
    (rest : List GuildEmoji) (m : EmojiMap) :
    collect_emojis valid (e :: rest) m =
      collect_emojis valid rest
        (if e.name ∈ valid then updateMap m e.name (.real e) else m) :=
  rfl

/-- A label no guild emoji bears is untouched by the collection pass. -/
theorem collect_emojis_absent (valid : List String) (ges : List GuildEmoji)
    (m : EmojiMap) (k : String) (h : ∀ e, e ∈ ges → e.name ≠ k) :
    collect_emojis valid ges m k = m k := by
  induction ges generalizing m with
  | nil => rfl
  | cons e rest ih =>
    have hne : e.name ≠ k := h e (List.mem_cons_self _ _)
    rw [collect_emojis_cons,
      ih _ (fun e' he' => h e' (List.mem_cons_of_mem _ he'))]
    by_cases he : e.name ∈ valid
    · simp [he, updateMap, Ne.symm hne]
    · simp [he]

/-- A label some guild emoji bears (or that the accumulator already binds
to a matching real emoji) ends bound to a matching real emoji. -/
theorem collect_emojis_real_at (valid : List String) (ges : List GuildEmoji)
    (m : EmojiMap) (k : String)
    (h : (∃ e0, m k = some (.real e0) ∧ e0.name = k) ∨
      (k ∈ valid ∧ ∃ e, e ∈ ges ∧ e.name = k)) :
    ∃ e, collect_emojis valid ges m k = some (.real e) ∧ e.name = k ∧
      (e ∈ ges ∨ m k = some (.real e)) := by
  induction ges generalizing m with
  | nil =>
    cases h with
    | inl h0 =>
      obtain ⟨e0, hm, hn⟩ := h0
      exact ⟨e0, hm, hn, .inr hm⟩
    | inr h0 =>
      obtain ⟨-, e, hmem, -⟩ := h0
      cases hmem
  | cons e rest ih =>
    by_cases he : e.name ∈ valid
    · by_cases hk : k = e.name
      · have h' : (∃ e0, (updateMap m e.name (.real e)) k =
            some (.real e0) ∧ e0.name = k) ∨
            (k ∈ valid ∧ ∃ e', e' ∈ rest ∧ e'.name = k) :=
          .inl ⟨e, by simp [updateMap, hk], hk.symm⟩
        obtain ⟨e'', hcol, hn'', hprov⟩ := ih (updateMap m e.name (.real e)) h'
        refine ⟨e'', by rw [collect_emojis_cons]; simpa [he] using hcol, hn'', ?_⟩
        cases hprov with
        | inl hmem => exact .inl (List.mem_cons_of_mem _ hmem)
        | inr hupd =>
          have heq : (EmojiValue.real e) = .real e'' := by
            have := hupd
            simp [updateMap, hk] at this
            rw [this]
          obtain rfl : e = e'' := by cases heq; rfl
          exact .inl (List.mem_cons_self _ _)
      · have hmk : (updateMap m e.name (.real e)) k = m k := by
          simp [updateMap, hk]
        have h' : (∃ e0, (updateMap m e.name (.real e)) k =
            some (.real e0) ∧ e0.name = k) ∨
            (k ∈ valid ∧ ∃ e', e' ∈ rest ∧ e'.name = k) := by
          cases h with
          | inl h0 =>
            obtain ⟨e0, hm0, hn0⟩ := h0
            exact .inl ⟨e0, by rw [hmk]; exact hm0, hn0⟩
          | inr h0 =>
            obtain ⟨hkv, e', hmem, hn⟩ := h0
            cases List.mem_cons.mp hmem with
            | inl heq =>
              exfalso
              apply hk
              rw [heq] at hn
              exact hn.symm
            | inr hmem' => exact .inr ⟨hkv, e', hmem', hn⟩
        obtain ⟨e'', hcol, hn'', hprov⟩ := ih (updateMap m e.name (.real e)) h'
        refine ⟨e'', by rw [collect_emojis_cons]; simpa [he] using hcol, hn'', ?_⟩
        cases hprov with
        | inl hmem => exact .inl (List.mem_cons_of_mem _ hmem)
        | inr hupd => exact .inr (by rw [hmk] at hupd; exact hupd)
    · have h' : (∃ e0, m k = some (.real e0) ∧ e0.name = k) ∨
          (k ∈ valid ∧ ∃ e', e' ∈ rest ∧ e'.name = k) := by
        cases h with
        | inl h0 => exact .inl h0
        | inr h0 =>
          obtain ⟨hkv, e', hmem, hn⟩ := h0
          cases List.mem_cons.mp hmem with
          | inl heq =>
            exfalso
            apply he
            rw [heq] at hn
            rw [hn]
            exact hkv
          | inr hmem' => exact .inr ⟨hkv, e', hmem', hn⟩
      obtain ⟨e'', hcol, hn'', hprov⟩ := ih m h'
      refine ⟨e'', by rw [collect_emojis_cons]; simpa [he] using hcol, hn'', ?_⟩
      cases hprov with
      | inl hmem => exact .inl (List.mem_cons_of_mem _ hmem)
      | inr hm0 => exact .inr hm0

/-- An expected label matched by some guild emoji ends mapped to a real
matching guild emoji after `load_emojis`. -/
theorem load_emojis_found_real (valid : List String) (ges : List GuildEmoji)
    (k : String) (hkv : k ∈ valid) (hex : ∃ e, e ∈ ges ∧ e.name = k) :
    ∃ e, (load_emojis valid ges).1 k = some (.real e) ∧ e.name = k ∧
      e ∈ ges := by
  obtain ⟨e, hcol, hn, hprov⟩ :=
    collect_emojis_real_at valid ges emptyEmojiMap k (.inr ⟨hkv, hex⟩)
  have hmem : e ∈ ges := by
    cases hprov with
    | inl hmem => exact hmem
    | inr habs => exact absurd habs (by simp [emptyEmojiMap])
  have hnotmiss :
      k ∉ missing_emojis valid (collect_emojis valid ges emptyEmojiMap) := by
    simp [missing_emojis, List.mem_filter, hcol]
  refine ⟨e, ?_, hn, hmem⟩
  unfold load_emojis
  by_cases hmiss :
      missing_emojis valid (collect_emojis valid ges emptyEmojiMap) = []
  · simp [hmiss, hcol]
  · simp [hmiss, hnotmiss, hcol]

/-- An expected label matched by no guild emoji ends mapped to the
placeholder glyph after `load_emojis`. -/
theorem load_emojis_missing_placeholder (valid : List String)
    (ges : List GuildEmoji) (k : String) (hkv : k ∈ valid)
    (habs : ∀ e, e ∈ ges → e.name ≠ k) :
    (load_emojis valid ges).1 k = some (.placeholderGlyph "❓") := by
  have hcol : collect_emojis valid ges emptyEmojiMap k = none := by
    rw [collect_emojis_absent valid ges emptyEmojiMap k habs]
    rfl
  have hmiss :
      k ∈ missing_emojis valid (collect_emojis valid ges emptyEmojiMap) := by
    simp [missing_emojis, List.mem_filter, hcol, hkv]
  have hne :
      missing_emojis valid (collect_emojis valid ges emptyEmojiMap) ≠ [] := by
    intro hemp
    rw [hemp] at hmiss
    cases hmiss
  unfold load_emojis
  simp [hne, hmiss]

/-! ### C4 — emoji cache population and consolidated warning -/

/-- C4: after `load_emojis`, every expected label found among the guild's
emojis maps to a matching real emoji and every missing expected label maps
to the constant placeholder; a label is missing exactly when no guild
emoji bears it, and when at least one label is missing exactly one
consolidated message naming all missing labels is sent (none otherwise). -/
theorem c4_load_emojis_cache (valid : List String) (ges : List GuildEmoji) :
    (∀ k, k ∈ valid → (∃ e, e ∈ ges ∧ e.name = k) →
      ∃ e, (load_emojis valid ges).1 k = some (.real e) ∧ e.name = k ∧
        e ∈ ges) ∧
    (∀ k, k ∈ valid → (∀ e, e ∈ ges → e.name ≠ k) →
      (load_emojis valid ges).1 k = some (.placeholderGlyph "❓")) ∧
    (∀ k, k ∈ valid →
      ((∀ e, e ∈ ges → e.name ≠ k) ↔
        k ∈ missing_emojis valid (collect_emojis valid ges emptyEmojiMap))) ∧
    (missing_emojis valid (collect_emojis valid ges emptyEmojiMap) = [] →
      (load_emojis valid ges).2 = []) ∧
    (missing_emojis valid (collect_emojis valid ges emptyEmojiMap) ≠ [] →
      (load_emojis valid ges).2 =
        [missing_emojis valid (collect_emojis valid ges emptyEmojiMap)]) := by
  refine ⟨fun k hkv hex => load_emojis_found_real valid ges k hkv hex,
    fun k hkv habs => load_emojis_missing_placeholder valid ges k hkv habs,
    ?_, ?_, ?_⟩
  · intro k hkv
    constructor
    · intro habs
      have hcol : collect_emojis valid ges emptyEmojiMap k = none := by
        rw [collect_emojis_absent valid ges emptyEmojiMap k habs]
        rfl
      simp [missing_emojis, List.mem_filter, hcol, hkv]
    · intro hmiss e he hn
      obtain ⟨e', hcol, -, -⟩ :=
        collect_emojis_real_at valid ges emptyEmojiMap k (.inr ⟨hkv, e, he, hn⟩)
      have hnone := (List.mem_filter.mp hmiss).2
      rw [hcol] at hnone
      cases hnone
  · intro h
    unfold load_emojis
    simp [h]
  · intro h
    unfold load_emojis
    simp [h]

/-- Witness for C4 at the spec's own example: expected labels `a, b, c`,
guild emojis named `a, d`: `a` maps to the real emoji, `b` to the
placeholder, and exactly one message naming `b` and `c` is sent. -/
theorem c4_load_emojis_cache_witness :
    (∃ e, (load_emojis ["a", "b", "c"] [⟨"a", 1⟩, ⟨"d", 2⟩]).1 "a" =
      some (.real e) ∧ e.name = "a" ∧ e ∈ [⟨"a", 1⟩, ⟨"d", 2⟩]) ∧
    (load_emojis ["a", "b", "c"] [⟨"a", 1⟩, ⟨"d", 2⟩]).1 "b" =
      some (.placeholderGlyph "❓") ∧
    (load_emojis ["a", "b", "c"] [⟨"a", 1⟩, ⟨"d", 2⟩]).2 = [["b", "c"]] := by
  have T := c4_load_emojis_cache ["a", "b", "c"] [⟨"a", 1⟩, ⟨"d", 2⟩]
  refine ⟨T.1 "a" (by decide) ⟨⟨"a", 1⟩, by decide, rfl⟩,
    T.2.1 "b" (by decide) (by decide), ?_⟩
  have h2 := T.2.2.2.2 (by decide)
  rw [h2]
  decide

/-! ### C10 — totality of the emoji mapping over the 12 labels -/

/-- C10: there are exactly 12 expected labels and after `load_emojis`
every one of them has an entry — either a real guild emoji bearing the
label, or the literal placeholder string "❓" (a plain glyph value, not a
platform emoji object) — so no lookup of an expected label misses. -/
theorem c10_emoji_mapping_total (ges : List GuildEmoji) :
    emojiNames.length = 12 ∧
    (∀ k, k ∈ emojiNames →
      ∃ v, (load_emojis emojiNames ges).1 k = some v ∧
        ((∃ e, v = .real e ∧ e.name = k ∧ e ∈ ges) ∨
          v = .placeholderGlyph "❓")) := by
  refine ⟨rfl, ?_⟩
  intro k hk
  by_cases hex : ∃ e, e ∈ ges ∧ e.name = k
  · obtain ⟨e, hm, hn, hmem⟩ := load_emojis_found_real emojiNames ges k hk hex
    exact ⟨.real e, hm, .inl ⟨e, rfl, hn, hmem⟩⟩
  · push_neg at hex
    exact ⟨.placeholderGlyph "❓",
      load_emojis_missing_placeholder emojiNames ges k hk hex, .inr rfl⟩

/-- Witness for C10: on a guild with no emojis, the `commit` label still
resolves, to the placeholder glyph. -/
theorem c10_emoji_mapping_total_witness :
    ∃ v, (load_emojis emojiNames []).1 "commit" = some v ∧
      ((∃ e, v = .real e ∧ e.name = "commit" ∧ e ∈ ([] : List GuildEmoji)) ∨
        v = .placeholderGlyph "❓") :=
  (c10_emoji_mapping_total []).2 "commit" (by decide)
